import Mathlib

/-!
# Verification of the pdf-reorganizer page-collection and merge pipeline

A shallow embedding of the state and operations of `src/App.jsx`
(the `App` component of the pdf-reorganizer application), together with
theorems checking the natural-language specification against it.

Conventions of the embedding:
* Page dimensions are rationals (PDF points).
* The opaque uploaded `File` blob is modelled by `SrcFile`: its object
  identity is the `key` field, its `name` is the file name, and the pages
  pdf.js / pdf-lib would report are listed in `pages`.  The boolean fields
  record whether the corresponding fallible library call (document decode,
  page rasterization, image/page embedding) succeeds on this input; the
  JavaScript code observes those calls only through thrown exceptions.
* `Date.now()` is modelled by a clock oracle `Nat → Nat` applied to a
  running count of the calls made so far.
-/

/-- One page of an uploaded PDF document, as the decoding libraries see it:
its natural (MediaBox) dimensions, its own `/Rotate` entry, and whether
rasterizing (`render`) and embedding (`embedPng`/`embedPage`/`copyPages`)
succeed on it. -/
structure SrcPage where
  width : ℚ
  height : ℚ
  intrinsicRot : Nat
  renderOk : Bool
  embedOk : Bool
deriving DecidableEq, Repr

/-- An uploaded `File` blob.  `key` is the JavaScript object identity (two
uploads are distinct objects even when the bytes and name agree);
`intakeOk` is whether `pdfjsLib.getDocument` succeeds on it at intake time,
`jsLoadOk` whether it succeeds at merge time (flatten path), and `loadOk`
whether `PDFDocument.load` (pdf-lib) succeeds at merge time. -/
structure SrcFile where
  key : Nat
  name : String
  pages : List SrcPage
  intakeOk : Bool
  loadOk : Bool
  jsLoadOk : Bool
deriving DecidableEq, Repr

/-- One entry of the Page Registry (`pdfPages` state), as pushed by `onDrop`:
`{ id, file, fileName, pageIndex, preview, rotation, width, height }`.
The display-only `preview` object URL is not part of the embedding. -/
structure PageEntry where
  id : String
  file : SrcFile
  fileName : String
  pageIndex : Nat
  rotation : Nat
  width : ℚ
  height : ℚ
deriving DecidableEq, Repr

/-! ## Selection Set and Mutation Operations (`toggleSelection`,
`clearSelection`, `deleteSelected`, `rotateSelected`) -/

/-- `toggleSelection` of `App.jsx`: remove the id if present, else append it. -/
def toggleSelection (id : String) (prev : List String) : List String :=
  if prev.contains id then prev.filter (fun pid => pid != id) else prev ++ [id]

/-- `deleteSelected` of `App.jsx`: the new registry keeps the pages whose id
is not selected; the new selection keeps the ids that still name a
surviving page.  Returns `(new pdfPages, new selectedPages)`. -/
def deleteSelected (selectedPages : List String) (pages : List PageEntry) :
    List PageEntry × List String :=
  let newPages := pages.filter (fun p => !(selectedPages.contains p.id))
  let validIds := newPages.map (fun p => p.id)
  (newPages, selectedPages.filter (fun id => validIds.contains id))

/-- `rotateSelected` of `App.jsx`: each selected entry gets
`rotation = (rotation + 90) % 360`; the rest are untouched. -/
def rotateSelected (selectedPages : List String) (pages : List PageEntry) :
    List PageEntry :=
  pages.map (fun p =>
    if selectedPages.contains p.id then
      { p with rotation := (p.rotation + 90) % 360 }
    else p)

/-! ## Reorder Engine (`handleDragEnd`)

JavaScript `Array.prototype.slice` accepts negative indices (counted from
the end, clamped), and `findIndex` returns `-1` when no element matches;
`handleDragEnd` feeds the latter to the former, so both are modelled
faithfully over `Int`. -/

/-- Clamp a JavaScript slice index to `[0, n]`: negative indices count from
the end of the array. -/
def jsClampIndex (n : Nat) (i : Int) : Nat :=
  if i < 0 then (max ((n : Int) + i) 0).toNat else min i.toNat n

/-- `l.slice(0, e)` -/
def jsSliceTo (l : List α) (e : Int) : List α :=
  l.take (jsClampIndex l.length e)

/-- `l.slice(s)` -/
def jsSliceFrom (l : List α) (s : Int) : List α :=
  l.drop (jsClampIndex l.length s)

/-- `Array.prototype.findIndex`: the index of the first match, `-1` if none. -/
def jsFindIndex (p : α → Bool) (l : List α) : Int :=
  if l.findIdx p = l.length then -1 else ((l.findIdx p : Nat) : Int)

/-- `handleDragEnd` of `App.jsx` (the reorder engine), given the current
selection, the current registry, the dragged id and the drop target id.
When `active.id === over.id` the registry is left unchanged.
`oldIndexes.map(i => pdfPages[i])` would produce `undefined` array slots
for a selected id absent from the registry; the embedding keeps only the
entries that resolve. -/
def handleDragEnd (selectedPages : List String) (pdfPages : List PageEntry)
    (activeId overId : String) : List PageEntry :=
  if activeId ≠ overId then
    let activeIds :=
      if selectedPages.contains activeId then selectedPages else [activeId]
    let newIndex := jsFindIndex (fun p => p.id == overId) pdfPages
    let movedPages :=
      activeIds.filterMap (fun id => pdfPages.find? (fun p => p.id == id))
    let remainingPages := pdfPages.filter (fun p => !(activeIds.contains p.id))
    let before := jsSliceTo remainingPages newIndex
    let after := jsSliceFrom remainingPages newIndex
    before ++ movedPages ++ after
  else pdfPages

/-! ## File intake (`onDrop`) -/

/-- The id template of `onDrop`:
`` `${file.name}-page-${i}-${Date.now()}` ``. -/
def pageId (name : String) (i : Nat) (t : Nat) : String :=
  name ++ "-page-" ++ toString i ++ "-" ++ toString t

/-- The `PageEntry` values one file contributes, in source page order.
`clock` is the `Date.now()` oracle and `k` the number of calls made before
this file's pages are pushed (one call per page). -/
def intakeEntries (f : SrcFile) (clock : Nat → Nat) (k : Nat) : List PageEntry :=
  f.pages.enum.map (fun ip =>
    { id := pageId f.name ip.1 (clock (k + ip.1))
      file := f
      fileName := f.name
      pageIndex := ip.1
      rotation := 0
      width := ip.2.width
      height := ip.2.height })

/-- The `newPages` accumulation loop of `onDrop`.  There is no `try`/`catch`
around the per-file body: a file whose decode fails rejects the whole
handler, so the loop either yields all pages of all files or fails. -/
def collectNewPages (clock : Nat → Nat) :
    List SrcFile → Nat → Except Unit (List PageEntry)
  | [], _ => .ok []
  | f :: fs, k =>
    if f.intakeOk then
      match collectNewPages clock fs (k + f.pages.length) with
      | .ok rest => .ok (intakeEntries f clock k ++ rest)
      | .error e => .error e
    else .error ()

/-- The registry after `onDrop` runs on `files` with previous registry
`prev`: on success `setPdfPages(prev => [...prev, ...newPages])` runs; on a
decode failure the rejection leaves the registry untouched. -/
def onDropState (files : List SrcFile) (clock : Nat → Nat)
    (prev : List PageEntry) : List PageEntry :=
  match collectNewPages clock files 0 with
  | .ok newPages => prev ++ newPages
  | .error _ => prev

/-! ## Merge Pipeline (`mergeAndDownload`) -/

/-- What one output page of the merged document holds, abstracting the
drawn bytes: which source content was placed on it and how.
* `raster`: the flatten path — a PNG of page `pageIndex` of the file with
  identity `fileKey`, rasterized through a pdf.js viewport at scale
  `oversample` and rotation `viewportRot` (the rotation actually passed to
  the rasterizer, hence visible in the pixels).
* `drawn`: the normalize path — the embedded source page drawn at the
  origin with the given axis scales.
* `copied`: the verbatim copy path. -/
inductive OutputContent where
  | raster (fileKey : Nat) (pageIndex : Nat) (oversample : ℚ) (viewportRot : Nat)
  | drawn (fileKey : Nat) (pageIndex : Nat) (xScale : ℚ) (yScale : ℚ)
  | copied (fileKey : Nat) (pageIndex : Nat)
deriving DecidableEq, Repr

/-- One page of the merged output: its media box and its own `/Rotate`
property (pages created by `addPage([w, h])` carry rotation `0`;
`copyPages` preserves the source page's rotation unless `setRotation`
overrides it). -/
structure OutputPage where
  width : ℚ
  height : ℚ
  rotationProp : Nat
  content : OutputContent
deriving DecidableEq, Repr

/-- The mutable state of one `mergeAndDownload` invocation: the name-keyed
`loadedPdfs` cache (a JavaScript `Map`, insertion-ordered), the decode log
(`pdfLibLoads` one entry per `PDFDocument.load`, `pdfjsLoads` one entry per
`pdfjsLib.getDocument` in the flatten branch — each records the `key` of
the decoded file), and the output pages added so far. -/
structure MergeState where
  loadedPdfs : List (String × SrcFile)
  pdfLibLoads : List Nat
  pdfjsLoads : List Nat
  pages : List OutputPage
deriving DecidableEq, Repr

/-- The initial merge state: `PDFDocument.create()` and an empty cache. -/
def initMergeState : MergeState := ⟨[], [], [], []⟩

/-- The scale of the normalize branch:
`optimizeCanvas ? Math.min(MAX_WIDTH / w, MAX_HEIGHT / h, 1) : 1` with
`MAX_WIDTH = 612` and `MAX_HEIGHT = 792`. -/
def mergeScale (optimizeCanvas : Bool) (w h : ℚ) : ℚ :=
  if optimizeCanvas then min (min (612 / w) (792 / h)) 1 else 1

/-- The source-resolution step at the top of the merge loop body:
`let srcPdf = loadedPdfs.get(page.file.name)`, and on a miss
`PDFDocument.load(await page.file.arrayBuffer())` followed by
`loadedPdfs.set(page.file.name, srcPdf)`.  Returns the pdf-lib document
used for this page together with the updated merge state. -/
def loadSrcPdf (st : MergeState) (page : PageEntry) :
    Except String (SrcFile × MergeState) :=
  match st.loadedPdfs.lookup page.file.name with
  | some f => .ok (f, st)
  | none =>
    if page.file.loadOk then
      .ok (page.file,
        { st with
          loadedPdfs := st.loadedPdfs ++ [(page.file.name, page.file)]
          pdfLibLoads := st.pdfLibLoads ++ [page.file.key] })
    else .error "InvalidDocument"

/-- The flatten branch of the loop body: a fresh pdf.js decode of
`page.file`'s bytes, `getPage(page.pageIndex + 1)`, rasterization into a
`2 * w` by `2 * h` canvas through `getViewport({ scale: 2 })` — which
leaves the viewport rotation at the source page's own `/Rotate` value —
then `embedPng` and `addPage([w, h]).drawImage(..., { x: 0, y: 0,
width: w, height: h })`.  `w`/`h` are the natural size reported by the
(cache-resolved) pdf-lib page. -/
def flattenStep (st1 : MergeState) (page : PageEntry) (w h : ℚ) :
    Except String MergeState :=
  if page.file.jsLoadOk then
    match page.file.pages.get? page.pageIndex with
    | none => .error "InvalidDocument"
    | some jsPage =>
      if jsPage.renderOk then
        if jsPage.embedOk then
          .ok { st1 with
            pdfjsLoads := st1.pdfjsLoads ++ [page.file.key]
            pages := st1.pages ++
              [⟨w, h, 0,
                .raster page.file.key page.pageIndex 2 jsPage.intrinsicRot⟩] }
        else .error "EncodingError"
      else .error "EncodingError"
  else .error "InvalidDocument"

/-- The `scale < 1` normalize branch: `addPage([w*scale, h*scale])`,
`embedPage(srcPage)` and one `drawPage` at the origin with
`xScale = yScale = scale`; the `continue` skips any unscaled copy. -/
def drawScaledStep (st1 : MergeState) (srcKey : Nat) (page : PageEntry)
    (srcPage : SrcPage) (scale : ℚ) : Except String MergeState :=
  if srcPage.embedOk then
    .ok { st1 with
      pages := st1.pages ++
        [⟨srcPage.width * scale, srcPage.height * scale, 0,
          .drawn srcKey page.pageIndex scale scale⟩] }
  else .error "EncodingError"

/-- The verbatim branch: `copyPages(srcPdf, [page.pageIndex])` — which
keeps the source page's own `/Rotate` — then
`if (page.rotation) copiedPage.setRotation(degrees(page.rotation))`, and
`addPage(copiedPage)`. -/
def copyStep (st1 : MergeState) (srcKey : Nat) (page : PageEntry)
    (srcPage : SrcPage) : Except String MergeState :=
  if srcPage.embedOk then
    .ok { st1 with
      pages := st1.pages ++
        [⟨srcPage.width, srcPage.height,
          if page.rotation ≠ 0 then page.rotation else srcPage.intrinsicRot,
          .copied srcKey page.pageIndex⟩] }
  else .error "EncodingError"

/-- One iteration of the `for (const page of pdfPages)` loop of
`mergeAndDownload`: resolve (and cache) the pdf-lib document by file name,
read the page's natural size via `srcPdf.getPage(page.pageIndex)` (an
out-of-range index throws), then take the flatten branch, the `scale < 1`
normalize branch (`scale` as in `mergeScale`), or the verbatim-copy
branch.  Every library call that can throw is a branch to `Except.error`;
the loop body has no handler of its own. -/
def processPage (optimizeCanvas flattenPages : Bool) (st : MergeState)
    (page : PageEntry) : Except String MergeState :=
  match loadSrcPdf st page with
  | .error e => .error e
  | .ok (srcPdf, st1) =>
    match srcPdf.pages.get? page.pageIndex with
    | none => .error "InvalidDocument"
    | some srcPage =>
      if flattenPages then
        flattenStep st1 page srcPage.width srcPage.height
      else if mergeScale optimizeCanvas srcPage.width srcPage.height < 1 then
        drawScaledStep st1 srcPdf.key page srcPage
          (mergeScale optimizeCanvas srcPage.width srcPage.height)
      else
        copyStep st1 srcPdf.key page srcPage

/-- The whole per-page loop of `mergeAndDownload`: a thrown exception
aborts the remaining iterations. -/
def mergeCore (optimizeCanvas flattenPages : Bool) (st : MergeState) :
    List PageEntry → Except String MergeState
  | [] => .ok st
  | p :: ps =>
    match processPage optimizeCanvas flattenPages st p with
    | .ok st2 => mergeCore optimizeCanvas flattenPages st2 ps
    | .error e => .error e

/-- The observable outcome of one `mergeAndDownload` call: the saved
document handed to the download anchor (if any), and the console error
log written by the `catch` handler. -/
structure MergeOutcome where
  download : Option (List OutputPage)
  consoleErrors : List String
deriving DecidableEq, Repr

/-- `mergeAndDownload` of `App.jsx`: the whole body is inside one
`try`/`catch`; only a run that processes every page reaches
`mergedPdf.save()` and the download, and any failure lands in
`catch (err) { console.error('Merge failed:', err) }`. -/
def mergeAndDownload (optimizeCanvas flattenPages : Bool)
    (pdfPages : List PageEntry) : MergeOutcome :=
  match mergeCore optimizeCanvas flattenPages initMergeState pdfPages with
  | .ok st => ⟨some st.pages, []⟩
  | .error _ => ⟨none, ["Merge failed:"]⟩

/-! ## Application state and UI steps (for the invariants of §3/§4.2) -/

/-- The two pieces of state the claims quantify over: `pdfPages` (the Page
Registry) and `selectedPages` (the Selection Set). -/
structure AppState where
  pdfPages : List PageEntry
  selectedPages : List String
deriving DecidableEq, Repr

/-- The state-mutating UI events of `App.jsx` that touch the registry or
the selection. -/
inductive UiStep where
  | toggle (id : String)
  | clear
  | deleteSel
  | rotateSel
  | dragEnd (activeId overId : String)
  | intake (newEntries : List PageEntry)
deriving DecidableEq, Repr

/-- The state transition each UI event performs, exactly as the handlers
of `App.jsx` do. -/
def applyStep : UiStep → AppState → AppState
  | .toggle id, s => { s with selectedPages := toggleSelection id s.selectedPages }
  | .clear, s => { s with selectedPages := [] }
  | .deleteSel, s =>
    let r := deleteSelected s.selectedPages s.pdfPages
    { pdfPages := r.1, selectedPages := r.2 }
  | .rotateSel, s =>
    { s with pdfPages := rotateSelected s.selectedPages s.pdfPages }
  | .dragEnd a o, s =>
    { s with pdfPages := handleDragEnd s.selectedPages s.pdfPages a o }
  | .intake es, s => { s with pdfPages := s.pdfPages ++ es }

/-- The condition under which the UI can fire a step: `onSelect` is only
invoked with the id of a rendered registry entry; every other step is
unconstrained. -/
def ValidStep : UiStep → AppState → Prop
  | .toggle id, s => id ∈ s.pdfPages.map (fun p => p.id)
  | _, _ => True

instance : ∀ step s, Decidable (ValidStep step s) := by
  intro step s
  cases step <;> simp only [ValidStep] <;> infer_instance

/-- The Selection Set subset invariant of §3: every selected id names a
registry entry. -/
def SelectionInv (s : AppState) : Prop :=
  ∀ id ∈ s.selectedPages, id ∈ s.pdfPages.map (fun p => p.id)

instance : ∀ s, Decidable (SelectionInv s) := fun s => by
  unfold SelectionInv; infer_instance

/-! ## Shared concrete fixtures -/

/-- A well-behaved one-page source file (US-Letter sized). -/
def sampleFile : SrcFile :=
  ⟨100, "sample.pdf", [⟨612, 792, 0, true, true⟩], true, true, true⟩

/-- Registry entries `p1 … p4` of the spec's reorder scenario. -/
def samplePage (i : Nat) : PageEntry :=
  ⟨"p" ++ toString i, sampleFile, "sample.pdf", 0, 0, 612, 792⟩

/-- The scenario registry `[p1, p2, p3, p4]`. -/
def registry4 : List PageEntry :=
  [samplePage 1, samplePage 2, samplePage 3, samplePage 4]

/-! ## C10 — rotation -/

theorem rotateSelected_append (sel : List String) (xs ys : List PageEntry) :
    rotateSelected sel (xs ++ ys) =
      rotateSelected sel xs ++ rotateSelected sel ys := by
  simp [rotateSelected]

theorem rotateSelected_four_single (sel : List String) (p : PageEntry)
    (h : p.rotation < 360) :
    rotateSelected sel (rotateSelected sel (rotateSelected sel
      (rotateSelected sel [p]))) = [p] := by
  obtain ⟨pid, pf, pfn, pidx, prot, pw, ph⟩ := p
  simp only [PageEntry.rotation] at h
  by_cases hc : sel.contains pid
  · simp only [rotateSelected, List.map_cons, List.map_nil, hc, if_pos]
    simp only [List.cons.injEq, PageEntry.mk.injEq, and_true, true_and]
    omega
  · have hm : pid ∉ sel := by simpa using hc
    simp [rotateSelected, hm]

/-- C10: `rotateSelected` leaves entries whose id is not selected
unchanged (so ids absent from the registry make it a no-op), sets each
selected entry's rotation to `(rotation + 90) % 360`, and applying it four
times with the same selection restores every rotation (all registry
rotations lie below 360). -/
theorem c10_rotation_cyclic :
    (∀ (sel : List String) (pages : List PageEntry),
      (∀ p ∈ pages, sel.contains p.id = false) →
      rotateSelected sel pages = pages)
    ∧ (∀ (sel : List String) (pages : List PageEntry),
      rotateSelected sel pages = pages.map (fun p =>
        if sel.contains p.id then { p with rotation := (p.rotation + 90) % 360 }
        else p))
    ∧ (∀ (sel : List String) (pages : List PageEntry),
      (∀ p ∈ pages, p.rotation < 360) →
      rotateSelected sel (rotateSelected sel (rotateSelected sel
        (rotateSelected sel pages))) = pages) := by
  refine ⟨?_, fun _ _ => rfl, ?_⟩
  · intro sel pages h
    unfold rotateSelected
    have hid : ∀ p ∈ pages,
        (if sel.contains p.id then
          { p with rotation := (p.rotation + 90) % 360 } else p) = id p := by
      intro p hp
      have hni : p.id ∉ sel := by simpa using h p hp
      simp [hni]
    rw [List.map_congr_left hid, List.map_id]
  · intro sel pages h
    induction pages with
    | nil => rfl
    | cons p ps ih =>
      have hsplit : p :: ps = [p] ++ ps := rfl
      rw [hsplit, rotateSelected_append, rotateSelected_append,
        rotateSelected_append, rotateSelected_append,
        rotateSelected_four_single sel p (h p (List.mem_cons_self p ps)),
        ih (fun q hq => h q (List.mem_cons_of_mem p hq))]

/-- Witness for C10 at a concrete registry. -/
theorem c10_rotation_witness :
    rotateSelected ["p1", "p3"] (rotateSelected ["p1", "p3"]
      (rotateSelected ["p1", "p3"] (rotateSelected ["p1", "p3"] registry4)))
      = registry4 :=
  c10_rotation_cyclic.2.2 ["p1", "p3"] registry4 (by decide)

/-! ## C7 — Selection Set subset invariant and `deleteSelected` -/

theorem jsSlice_split (l : List α) (k : Int) :
    jsSliceTo l k ++ jsSliceFrom l k = l := by
  unfold jsSliceTo jsSliceFrom
  exact List.take_append_drop _ l

theorem rotateSelected_ids (sel : List String) (pages : List PageEntry) :
    (rotateSelected sel pages).map (fun p => p.id) =
      pages.map (fun p => p.id) := by
  unfold rotateSelected
  rw [List.map_map]
  apply List.map_congr_left
  intro p _
  by_cases hc : p.id ∈ sel <;> simp [hc]

theorem handleDragEnd_keeps_selected (sel : List String)
    (pages : List PageEntry) (a o : String) (id : String) (hid : id ∈ sel)
    (hreg : id ∈ pages.map (fun p => p.id)) :
    id ∈ (handleDragEnd sel pages a o).map (fun p => p.id) := by
  unfold handleDragEnd
  by_cases hao : a ≠ o
  · rw [if_pos hao]
    obtain ⟨e, he, heid⟩ := List.mem_map.mp hreg
    by_cases hsel : sel.contains a
    · simp only [hsel, if_pos]
      have hfind : (pages.find? (fun p => p.id == id)).isSome := by
        rw [List.find?_isSome]
        exact ⟨e, he, by simp [heid]⟩
      obtain ⟨e2, he2⟩ := Option.isSome_iff_exists.mp hfind
      have he2id : e2.id = id := by simpa using List.find?_some he2
      refine List.mem_map.mpr ⟨e2, ?_, he2id⟩
      refine List.mem_append.mpr (Or.inl (List.mem_append.mpr (Or.inr ?_)))
      exact List.mem_filterMap.mpr ⟨id, hid, he2⟩
    · simp only [hsel, if_neg, Bool.false_eq_true, not_false_iff]
      have hne : id ≠ a := by
        intro hcon
        subst hcon
        exact hsel (by simpa using hid)
      have hrem : e ∈ pages.filter (fun p => !([a].contains p.id)) := by
        rw [List.mem_filter]
        exact ⟨he, by simp [heid, hne]⟩
      rw [← jsSlice_split (pages.filter (fun p => !([a].contains p.id)))
        (jsFindIndex (fun p => p.id == o) pages)] at hrem
      rcases List.mem_append.mp hrem with hb | ha
      · exact List.mem_map.mpr ⟨e, List.mem_append.mpr (Or.inl
          (List.mem_append.mpr (Or.inl hb))), heid⟩
      · exact List.mem_map.mpr ⟨e, List.mem_append.mpr (Or.inr ha), heid⟩
  · rw [if_neg hao]
    exact hreg

/-- C7: the Selection Set stays a subset of the registry's ids under every
UI step (`toggle` only ever fires with a rendered entry's id);
`deleteSelected` empties the Selection Set, keeps exactly the non-selected
entries in their relative order, and is a registry no-op when no selected
id is present in the registry. -/
theorem c7_selection_invariant_delete :
    (∀ (step : UiStep) (s : AppState), SelectionInv s → ValidStep step s →
      SelectionInv (applyStep step s))
    ∧ (∀ (sel : List String) (pages : List PageEntry),
      (deleteSelected sel pages).2 = [])
    ∧ (∀ (sel : List String) (pages : List PageEntry),
      (deleteSelected sel pages).1 = pages.filter (fun p => !(sel.contains p.id)))
    ∧ (∀ (sel : List String) (pages : List PageEntry),
      (∀ id ∈ sel, ¬ id ∈ pages.map (fun p => p.id)) →
      (deleteSelected sel pages).1 = pages) := by
  refine ⟨?_, ?_, fun sel pages => rfl, ?_⟩
  · intro step s hinv hvalid
    cases step with
    | toggle id =>
      intro x hx
      unfold applyStep toggleSelection at hx ⊢
      by_cases hc : s.selectedPages.contains id
      · simp only [hc, if_pos] at hx
        exact hinv x (List.mem_filter.mp hx).1
      · simp only [hc, if_neg, Bool.false_eq_true, not_false_iff] at hx
        rcases List.mem_append.mp hx with hxl | hxr
        · exact hinv x hxl
        · have : x = id := by simpa using hxr
          subst this
          exact hvalid
    | clear =>
      intro x hx
      simp only [applyStep] at hx
      exact absurd hx (List.not_mem_nil x)
    | deleteSel =>
      intro x hx
      unfold applyStep deleteSelected at hx ⊢
      simp only [] at hx
      have := (List.mem_filter.mp hx).2
      simpa using this
    | rotateSel =>
      intro x hx
      unfold applyStep
      rw [rotateSelected_ids]
      exact hinv x hx
    | dragEnd a o =>
      intro x hx
      exact handleDragEnd_keeps_selected _ _ a o x hx (hinv x hx)
    | intake es =>
      intro x hx
      unfold applyStep
      rw [List.map_append]
      exact List.mem_append.mpr (Or.inl (hinv x hx))
  · intro sel pages
    unfold deleteSelected
    apply List.filter_eq_nil_iff.mpr
    intro id hid
    intro hcon
    have : id ∈ (pages.filter (fun p => !(sel.contains p.id))).map
        (fun p => p.id) := by simpa using hcon
    obtain ⟨p, hp, hpid⟩ := List.mem_map.mp this
    have := (List.mem_filter.mp hp).2
    rw [hpid] at this
    simp only [Bool.not_eq_true'] at this
    have : id ∉ sel := by simpa using this
    exact this hid
  · intro sel pages h
    unfold deleteSelected
    apply List.filter_eq_self.mpr
    intro p hp
    have hnot : p.id ∉ sel := by
      intro hcon
      exact h p.id hcon (List.mem_map.mpr ⟨p, hp, rfl⟩)
    simpa using hnot

/-- Witness for C7 at a concrete state and step. -/
theorem c7_selection_witness :
    SelectionInv (applyStep (.deleteSel)
      ⟨registry4, ["p2", "p4"]⟩)
    ∧ (deleteSelected ["p1", "zzz"] registry4).1 =
      [samplePage 2, samplePage 3, samplePage 4] :=
  ⟨c7_selection_invariant_delete.1 .deleteSel ⟨registry4, ["p2", "p4"]⟩
      (by decide) (by decide),
    by
      rw [c7_selection_invariant_delete.2.2.1 ["p1", "zzz"] registry4]
      decide⟩

/-! ## C1 — Reorder Engine splice index -/

theorem jsClampIndex_natCast (n k : Nat) : jsClampIndex n (k : Int) = min k n := by
  unfold jsClampIndex
  rw [if_neg (by omega)]
  omega

theorem jsSliceTo_natCast (l : List α) (k : Nat) :
    jsSliceTo l (k : Int) = l.take k := by
  unfold jsSliceTo
  rw [jsClampIndex_natCast]
  rcases Nat.le_total k l.length with h | h
  · rw [Nat.min_eq_left h]
  · rw [Nat.min_eq_right h, List.take_length, List.take_of_length_le h]

theorem jsSliceFrom_natCast (l : List α) (k : Nat) :
    jsSliceFrom l (k : Int) = l.drop k := by
  unfold jsSliceFrom
  rw [jsClampIndex_natCast]
  rcases Nat.le_total k l.length with h | h
  · rw [Nat.min_eq_left h]
  · rw [Nat.min_eq_right h, List.drop_length, List.drop_of_length_le h]

theorem jsFindIndex_of_mem (p : α → Bool) (l : List α) (h : ∃ x ∈ l, p x) :
    jsFindIndex p l = ((l.findIdx p : Nat) : Int) := by
  unfold jsFindIndex
  have := List.findIdx_lt_length_of_exists h
  rw [if_neg (by omega)]

/-- C1 counterexample: in the scenario registry `[p1, p2, p3, p4]` with
selection `{p1, p4}`, dragging `p1` onto `p2` yields `[p2, p1, p4, p3]` —
not the `[p1, p4, p2, p3]` the claim's recomputed-in-remaining splice rule
predicts, because `handleDragEnd` computes the splice index against the
full pre-extraction order. -/
theorem c1_splice_counterexample :
    (handleDragEnd ["p1", "p4"] registry4 "p1" "p2").map (fun p => p.id)
      = ["p2", "p1", "p4", "p3"]
    ∧ (handleDragEnd ["p1", "p4"] registry4 "p1" "p2").map (fun p => p.id)
      ≠ ["p1", "p4", "p2", "p3"] := by
  constructor <;> decide

/-- C1 (amended): when the move set is the Selection Set (it contains the
active id) and the drop target differs from the active id and is present
in the registry, the splice index is the target's position in the *full*
pre-extraction order (not its position within `remaining`), and the new
order is `remaining[0:idxFull] ++ moved ++ remaining[idxFull:]`; the
scenario accordingly yields `[p2, p1, p4, p3]`. -/
theorem c1_reorder_splice :
    ((handleDragEnd ["p1", "p4"] registry4 "p1" "p2").map (fun p => p.id)
      = ["p2", "p1", "p4", "p3"])
    ∧ (∀ (sel : List String) (pages : List PageEntry) (a o : String),
      sel.contains a = true → a ≠ o → (∃ e ∈ pages, e.id = o) →
      handleDragEnd sel pages a o =
        (pages.filter (fun p => !(sel.contains p.id))).take
            (pages.findIdx (fun p => p.id == o))
          ++ sel.filterMap (fun id => pages.find? (fun p => p.id == id))
          ++ (pages.filter (fun p => !(sel.contains p.id))).drop
            (pages.findIdx (fun p => p.id == o))) := by
  refine ⟨by decide, ?_⟩
  intro sel pages a o hsel hao hex
  unfold handleDragEnd
  rw [if_pos hao, if_pos hsel]
  rw [jsFindIndex_of_mem _ _
    (by obtain ⟨e, he, heo⟩ := hex; exact ⟨e, he, by simp [heo]⟩)]
  simp only [jsSliceTo_natCast, jsSliceFrom_natCast]

/-- Witness for C1's amended statement at a concrete drag (selection
`{p1, p4}`, drag `p1` onto `p3`). -/
theorem c1_reorder_witness :
    handleDragEnd ["p1", "p4"] registry4 "p1" "p3" =
      (registry4.filter
          (fun p => !((["p1", "p4"] : List String).contains p.id))).take
          (registry4.findIdx (fun p => p.id == "p3"))
        ++ (["p1", "p4"] : List String).filterMap
          (fun id => registry4.find? (fun p => p.id == id))
        ++ (registry4.filter
          (fun p => !((["p1", "p4"] : List String).contains p.id))).drop
          (registry4.findIdx (fun p => p.id == "p3")) :=
  c1_reorder_splice.2 ["p1", "p4"] registry4 "p1" "p3" (by decide) (by decide)
    ⟨samplePage 3, by decide, by decide⟩

/-! ## C8 / C9 — file intake -/

/-- The pages an intake of `files` contributes when every file parses,
starting at `Date.now()` call count `k`: each file's entries in source
page order, files in drop order. -/
def newPagesOf (clock : Nat → Nat) : List SrcFile → Nat → List PageEntry
  | [], _ => []
  | f :: fs, k => intakeEntries f clock k ++ newPagesOf clock fs (k + f.pages.length)

theorem collectNewPages_ok (clock : Nat → Nat) (files : List SrcFile) (k : Nat)
    (h : ∀ f ∈ files, f.intakeOk = true) :
    collectNewPages clock files k = .ok (newPagesOf clock files k) := by
  induction files generalizing k with
  | nil => rfl
  | cons f fs ih =>
    unfold collectNewPages newPagesOf
    rw [if_pos (h f (List.mem_cons_self f fs)),
      ih (k + f.pages.length) (fun g hg => h g (List.mem_cons_of_mem f hg))]

theorem collectNewPages_error (clock : Nat → Nat) (files : List SrcFile)
    (k : Nat) (h : ∃ f ∈ files, f.intakeOk = false) :
    collectNewPages clock files k = .error () := by
  induction files generalizing k with
  | nil =>
    obtain ⟨f, hf, _⟩ := h
    exact absurd hf (List.not_mem_nil f)
  | cons f fs ih =>
    unfold collectNewPages
    by_cases hok : f.intakeOk = true
    · rw [if_pos hok]
      obtain ⟨g, hg, hgf⟩ := h
      rcases List.mem_cons.mp hg with rfl | hgs
      · rw [hok] at hgf
        cases hgf
      · rw [ih (k + f.pages.length) ⟨g, hgs, hgf⟩]
    · rw [if_neg hok]

/-- A well-formed single-page file used by the intake scenarios. -/
def intakeGoodFile : SrcFile :=
  ⟨200, "good.pdf", [⟨612, 792, 0, true, true⟩], true, true, true⟩

/-- A file whose intake-time decode fails. -/
def intakeBadFile : SrcFile :=
  ⟨201, "bad.pdf", [⟨612, 792, 0, true, true⟩], false, true, true⟩

/-- C8 counterexample: dropping `[good, bad]` together adds *nothing* —
the good file of the same intake does not succeed, against the claim that
only the failing file's pages are missing. -/
theorem c8_intake_counterexample :
    onDropState [intakeGoodFile, intakeBadFile] (fun _ => 0) [] = []
    ∧ intakeEntries intakeGoodFile (fun _ => 0) 0 ≠ [] := by
  constructor <;> decide

/-- C8 (amended): a parse failure in any file of a multi-file intake
rejects the whole `onDrop` handler: none of that intake's files contribute
pages (even ones decoded before the failing file), while the registry
entries added by earlier intakes are untouched; an intake whose files all
parse appends every page. -/
theorem c8_intake_failure :
    (∀ (files : List SrcFile) (clock : Nat → Nat) (prev : List PageEntry),
      (∃ f ∈ files, f.intakeOk = false) →
      onDropState files clock prev = prev)
    ∧ (∀ (files : List SrcFile) (clock : Nat → Nat) (prev : List PageEntry),
      (∀ f ∈ files, f.intakeOk = true) →
      onDropState files clock prev = prev ++ newPagesOf clock files 0) := by
  constructor
  · intro files clock prev h
    unfold onDropState
    rw [collectNewPages_error clock files 0 h]
  · intro files clock prev h
    unfold onDropState
    rw [collectNewPages_ok clock files 0 h]

/-- Witness for C8: a failing second file leaves a populated registry
exactly as it was. -/
theorem c8_intake_witness :
    onDropState [intakeGoodFile, intakeBadFile] (fun _ => 1000) registry4
      = registry4 :=
  c8_intake_failure.1 [intakeGoodFile, intakeBadFile] (fun _ => 1000) registry4
    ⟨intakeBadFile, by decide, by decide⟩

/-- Two distinct uploaded files (distinct object identity) sharing the
name `a.pdf`. -/
def dupNameFileA : SrcFile :=
  ⟨300, "a.pdf", [⟨612, 792, 0, true, true⟩], true, true, true⟩

/-- See `dupNameFileA`; same name, different identity and content. -/
def dupNameFileB : SrcFile :=
  ⟨301, "a.pdf", [⟨100, 100, 90, true, true⟩], true, true, true⟩

/-- C9 counterexample: two same-named files ingested in the same
millisecond produce the id `a.pdf-page-0-0` twice — the registry id set
has a duplicate. -/
theorem c9_append_counterexample :
    ¬ (((onDropState [dupNameFileA, dupNameFileB] (fun _ => 0) []).map
      (fun p => p.id)).Nodup) := by
  decide

/-- C9 (amended): previously appended entries are unchanged by any intake
(the new registry starts with the old one); each file's pages are appended
in source page order (`pageIndex` runs `0, 1, …` through the file) with
rotation `0` and a back-reference to their file; the id is exactly the
string `{fileName}-page-{pageIndex}-{Date.now()}`, so ids are distinct
only as far as those three components distinguish pages (same-named files
ingested in the same millisecond collide); and an all-parsing intake
appends exactly its files' pages at the end. -/
theorem c9_append_order :
    (∀ (files : List SrcFile) (clock : Nat → Nat) (prev : List PageEntry),
      (onDropState files clock prev).take prev.length = prev)
    ∧ (∀ (f : SrcFile) (clock : Nat → Nat) (k : Nat),
      (intakeEntries f clock k).map (fun e => e.pageIndex) =
        List.range f.pages.length)
    ∧ (∀ (f : SrcFile) (clock : Nat → Nat) (k : Nat),
      ∀ e ∈ intakeEntries f clock k,
        e.id = pageId f.name e.pageIndex (clock (k + e.pageIndex))
        ∧ e.rotation = 0 ∧ e.file = f ∧ e.fileName = f.name)
    ∧ (∀ (files : List SrcFile) (clock : Nat → Nat) (prev : List PageEntry),
      (∀ f ∈ files, f.intakeOk = true) →
      onDropState files clock prev = prev ++ newPagesOf clock files 0) := by
  refine ⟨?_, ?_, ?_, ?_⟩
  · intro files clock prev
    unfold onDropState
    cases collectNewPages clock files 0 with
    | ok newPages => exact List.take_left prev newPages
    | error e => exact List.take_length prev
  · intro f clock k
    unfold intakeEntries
    rw [List.map_map]
    have : (fun e => PageEntry.pageIndex e) ∘ (fun ip : Nat × SrcPage =>
        ({ id := pageId f.name ip.1 (clock (k + ip.1)), file := f,
           fileName := f.name, pageIndex := ip.1, rotation := 0,
           width := ip.2.width, height := ip.2.height } : PageEntry)) =
        Prod.fst := rfl
    rw [this]
    rw [List.enum, List.enumFrom_map_fst, List.range_eq_range']
  · intro f clock k e he
    obtain ⟨ip, _, rfl⟩ := List.mem_map.mp he
    exact ⟨rfl, rfl, rfl, rfl⟩
  · intro files clock prev h
    unfold onDropState
    rw [collectNewPages_ok clock files 0 h]

/-- Witness for C9 at a concrete two-file intake. -/
theorem c9_append_witness :
    onDropState [intakeGoodFile, dupNameFileA] (fun n => n) registry4 =
      registry4 ++ newPagesOf (fun n => n) [intakeGoodFile, dupNameFileA] 0 :=
  c9_append_order.2.2.2 [intakeGoodFile, dupNameFileA] (fun n => n) registry4
    (by decide)

/-! ## C3 / C6 — normalize path of the merge -/

/-- The pdf-lib document `mergeAndDownload` uses for a page: the name-keyed
cache entry when one exists, else the page's own file (which the cache-miss
branch decodes). -/
def resolvedSrc (st : MergeState) (page : PageEntry) : SrcFile :=
  (st.loadedPdfs.lookup page.file.name).getD page.file

theorem loadSrcPdf_ok (st : MergeState) (page : PageEntry) (f : SrcFile)
    (st1 : MergeState) (h : loadSrcPdf st page = .ok (f, st1)) :
    f = resolvedSrc st page
    ∧ st1.pages = st.pages ∧ st1.pdfjsLoads = st.pdfjsLoads := by
  unfold loadSrcPdf at h
  unfold resolvedSrc
  split at h
  next f2 hl =>
    simp only [Except.ok.injEq, Prod.mk.injEq] at h
    obtain ⟨hf, hst⟩ := h
    subst hf
    subst hst
    rw [hl]
    exact ⟨rfl, rfl, rfl⟩
  next hl =>
    split at h
    next hload =>
      simp only [Except.ok.injEq, Prod.mk.injEq] at h
      obtain ⟨hf, hst⟩ := h
      subst hf
      subst hst
      rw [hl]
      exact ⟨rfl, rfl, rfl⟩
    next hload => simp at h

theorem processPage_normalize_spec (ob : Bool) (st st2 : MergeState)
    (page : PageEntry) (sp : SrcPage)
    (h : processPage ob false st page = .ok st2)
    (hsp : (resolvedSrc st page).pages.get? page.pageIndex = some sp) :
    (mergeScale ob sp.width sp.height < 1 ∧
      st2.pages = st.pages ++
        [⟨sp.width * mergeScale ob sp.width sp.height,
          sp.height * mergeScale ob sp.width sp.height, 0,
          .drawn (resolvedSrc st page).key page.pageIndex
            (mergeScale ob sp.width sp.height)
            (mergeScale ob sp.width sp.height)⟩])
    ∨ (¬ mergeScale ob sp.width sp.height < 1 ∧
      st2.pages = st.pages ++
        [⟨sp.width, sp.height,
          if page.rotation ≠ 0 then page.rotation else sp.intrinsicRot,
          .copied (resolvedSrc st page).key page.pageIndex⟩]) := by
  unfold processPage at h
  split at h
  next e heq => simp at h
  next srcPdf st1 heq =>
    obtain ⟨hf, hpages, _⟩ := loadSrcPdf_ok st page srcPdf st1 heq
    rw [← hf] at hsp ⊢
    split at h
    next hnone => rw [hsp] at hnone; cases hnone
    next srcPage heq2 =>
      rw [heq2] at hsp
      have hspe : srcPage = sp := by injection hsp
      subst hspe
      simp only [Bool.false_eq_true, if_false] at h
      split at h
      next hs =>
        unfold drawScaledStep at h
        split at h
        next he =>
          simp only [Except.ok.injEq] at h
          subst h
          exact Or.inl ⟨hs, by simp [hpages]⟩
        next he => simp at h
      next hs =>
        unfold copyStep at h
        split at h
        next he =>
          simp only [Except.ok.injEq] at h
          subst h
          exact Or.inr ⟨hs, by simp [hpages]⟩
        next he => simp at h

/-- C3 counterexample: for a 1000×1300 page the binding constraint is the
height, so `min(612/1000, 792/1300, 1) = 792/1300 = 198/325 ≈ 0.6092` —
not the claimed `0.612 = 612/1000`. -/
theorem c3_scale_counterexample :
    mergeScale true 1000 1300 = 198 / 325 ∧ (198 / 325 : ℚ) ≠ 612 / 1000 := by
  constructor
  · norm_num [mergeScale, min_def]
  · norm_num

/-- C3 (amended): with `flatten = false` and `normalizeCanvas = true`, the
scale is `min(612/width, 792/height, 1)`; when it is below 1, the single
output page added for the entry is sized `width*scale × height*scale` and
draws the embedded source page once, scaled by `scale` on both axes — no
unscaled copy is added; for a 1000×1300 page the scale is `792/1300 =
198/325 ≈ 0.6092` (not 0.612). -/
theorem c3_normalize_scale :
    (∀ (st st2 : MergeState) (page : PageEntry) (sp : SrcPage),
      processPage true false st page = .ok st2 →
      (resolvedSrc st page).pages.get? page.pageIndex = some sp →
      mergeScale true sp.width sp.height < 1 →
      st2.pages = st.pages ++
        [⟨sp.width * mergeScale true sp.width sp.height,
          sp.height * mergeScale true sp.width sp.height, 0,
          .drawn (resolvedSrc st page).key page.pageIndex
            (mergeScale true sp.width sp.height)
            (mergeScale true sp.width sp.height)⟩])
    ∧ mergeScale true 1000 1300 = 198 / 325 := by
  constructor
  · intro st st2 page sp h hsp hs
    rcases processPage_normalize_spec true st st2 page sp h hsp
      with ⟨_, hp⟩ | ⟨hns, _⟩
    · exact hp
    · exact absurd hs hns
  · norm_num [mergeScale, min_def]

/-- A 1000×1300 one-page source file of the spec's normalize scenario. -/
def bigSampleFile : SrcFile :=
  ⟨400, "big.pdf", [⟨1000, 1300, 0, true, true⟩], true, true, true⟩

/-- The registry entry for `bigSampleFile`'s page. -/
def bigSampleEntry : PageEntry :=
  ⟨"big", bigSampleFile, "big.pdf", 0, 0, 1000, 1300⟩

/-- The merge state after processing `bigSampleEntry` from scratch. -/
def bigOutState : MergeState :=
  ⟨[("big.pdf", bigSampleFile)], [400], [],
    [⟨1000 * mergeScale true 1000 1300, 1300 * mergeScale true 1000 1300, 0,
      .drawn 400 0 (mergeScale true 1000 1300) (mergeScale true 1000 1300)⟩]⟩

theorem bigSample_scale_lt : mergeScale true 1000 1300 < 1 := by
  norm_num [mergeScale, min_def]

theorem bigSample_process :
    processPage true false initMergeState bigSampleEntry = .ok bigOutState := by
  have step : processPage true false initMergeState bigSampleEntry =
      if mergeScale true 1000 1300 < 1 then
        drawScaledStep ⟨[("big.pdf", bigSampleFile)], [400], [], []⟩ 400
          bigSampleEntry ⟨1000, 1300, 0, true, true⟩ (mergeScale true 1000 1300)
      else
        copyStep ⟨[("big.pdf", bigSampleFile)], [400], [], []⟩ 400
          bigSampleEntry ⟨1000, 1300, 0, true, true⟩ := rfl
  rw [step, if_pos bigSample_scale_lt]
  rfl

/-- Witness for C3 on the 1000×1300 scenario page. -/
theorem c3_normalize_witness :
    bigOutState.pages = initMergeState.pages ++
      [⟨(1000 : ℚ) * mergeScale true 1000 1300,
        (1300 : ℚ) * mergeScale true 1000 1300, 0,
        .drawn (resolvedSrc initMergeState bigSampleEntry).key
          bigSampleEntry.pageIndex (mergeScale true 1000 1300)
          (mergeScale true 1000 1300)⟩] :=
  c3_normalize_scale.1 initMergeState bigOutState bigSampleEntry
    ⟨1000, 1300, 0, true, true⟩ bigSample_process rfl bigSample_scale_lt

/-- C6: on the normalize path (`flatten = false`, `normalizeCanvas = true`,
scale < 1) the entry's rotation is never applied — the added output page
has rotation property 0 and unrotated drawn content, for every value of
the entry's rotation; the entry's rotation reaches the output page's
rotation property only on the verbatim-copy path (scale not below 1, which
includes `normalizeCanvas = false`), and there only when nonzero. -/
theorem c6_scaled_path_rotation :
    (∀ (st st2 : MergeState) (page : PageEntry) (r : Nat) (sp : SrcPage),
      processPage true false st { page with rotation := r } = .ok st2 →
      (resolvedSrc st page).pages.get? page.pageIndex = some sp →
      mergeScale true sp.width sp.height < 1 →
      st2.pages = st.pages ++
        [⟨sp.width * mergeScale true sp.width sp.height,
          sp.height * mergeScale true sp.width sp.height, 0,
          .drawn (resolvedSrc st page).key page.pageIndex
            (mergeScale true sp.width sp.height)
            (mergeScale true sp.width sp.height)⟩])
    ∧ (∀ (ob : Bool) (st st2 : MergeState) (page : PageEntry) (sp : SrcPage),
      processPage ob false st page = .ok st2 →
      (resolvedSrc st page).pages.get? page.pageIndex = some sp →
      ¬ mergeScale ob sp.width sp.height < 1 →
      st2.pages = st.pages ++
        [⟨sp.width, sp.height,
          if page.rotation ≠ 0 then page.rotation else sp.intrinsicRot,
          .copied (resolvedSrc st page).key page.pageIndex⟩]) := by
  constructor
  · intro st st2 page r sp h hsp hs
    have hsp2 : (resolvedSrc st { page with rotation := r }).pages.get?
        ({ page with rotation := r } : PageEntry).pageIndex = some sp := hsp
    rcases processPage_normalize_spec true st st2 { page with rotation := r }
      sp h hsp2 with ⟨_, hp⟩ | ⟨hns, _⟩
    · exact hp
    · exact absurd hs hns
  · intro ob st st2 page sp h hsp hs
    rcases processPage_normalize_spec ob st st2 page sp h hsp
      with ⟨hlt, _⟩ | ⟨_, hp⟩
    · exact absurd hlt hs
    · exact hp

/-- A letter-sized registry entry rotated to 90° (exercises the copy path,
where rotation *is* applied). -/
def rotatedLetterEntry : PageEntry :=
  ⟨"rot", sampleFile, "sample.pdf", 0, 90, 612, 792⟩

theorem rotatedLetter_process :
    processPage false false initMergeState rotatedLetterEntry =
      .ok ⟨[("sample.pdf", sampleFile)], [100], [],
        [⟨612, 792, 90, .copied 100 0⟩]⟩ := rfl

/-- Witness for C6: with `normalizeCanvas` off, a rotated letter-sized
page takes the copy path and carries its rotation onto the output page's
rotation property. -/
theorem c6_scaled_witness :
    (⟨[("sample.pdf", sampleFile)], [100], [],
      [⟨612, 792, 90, .copied 100 0⟩]⟩ : MergeState).pages =
      initMergeState.pages ++
      [⟨(612 : ℚ), (792 : ℚ),
        if rotatedLetterEntry.rotation ≠ 0 then rotatedLetterEntry.rotation
        else (0 : Nat),
        .copied (resolvedSrc initMergeState rotatedLetterEntry).key
          rotatedLetterEntry.pageIndex⟩] :=
  c6_scaled_path_rotation.2 false initMergeState
    ⟨[("sample.pdf", sampleFile)], [100], [],
      [⟨612, 792, 90, .copied 100 0⟩]⟩
    rotatedLetterEntry ⟨612, 792, 0, true, true⟩
    rotatedLetter_process rfl (by decide)

/-! ## C2 — flatten path and rotation -/

/-- C2 (the code evaluated at the failing input): merging the 90°-rotated
`rotatedLetterEntry` with `flatten = true` rasterizes through
`getViewport({ scale: 2 })`, whose rotation defaults to the source page's
own `/Rotate` (here 0) — the entry's 90° rotation is nowhere in the
pipeline, so the raster content is *not* rotated (viewport rotation 0).
The rest of the claim holds: oversampling 2, output page at the natural
612×792 size, output rotation property 0. -/
theorem c2_flatten_rotation_dropped :
    mergeAndDownload true true [rotatedLetterEntry] =
      ⟨some [⟨612, 792, 0, .raster 100 0 2 0⟩], []⟩ := by decide

/-! ## C5 — decode caching -/

theorem loadSrcPdf_effects (st : MergeState) (page : PageEntry) (f : SrcFile)
    (st1 : MergeState) (h : loadSrcPdf st page = .ok (f, st1)) :
    st1.pdfjsLoads = st.pdfjsLoads ∧ st1.pages = st.pages
    ∧ ((st1.loadedPdfs = st.loadedPdfs ∧ st1.pdfLibLoads = st.pdfLibLoads)
      ∨ (st.loadedPdfs.lookup page.file.name = none
        ∧ st1.loadedPdfs = st.loadedPdfs ++ [(page.file.name, page.file)]
        ∧ st1.pdfLibLoads = st.pdfLibLoads ++ [page.file.key])) := by
  unfold loadSrcPdf at h
  split at h
  next f2 hl =>
    simp only [Except.ok.injEq, Prod.mk.injEq] at h
    obtain ⟨hf, hst⟩ := h
    subst hst
    exact ⟨rfl, rfl, Or.inl ⟨rfl, rfl⟩⟩
  next hl =>
    split at h
    next hload =>
      simp only [Except.ok.injEq, Prod.mk.injEq] at h
      obtain ⟨hf, hst⟩ := h
      subst hst
      exact ⟨rfl, rfl, Or.inr ⟨hl, rfl, rfl⟩⟩
    next hload => simp at h

theorem flattenStep_effects (st1 st2 : MergeState) (page : PageEntry)
    (w h : ℚ) (heq : flattenStep st1 page w h = .ok st2) :
    st2.loadedPdfs = st1.loadedPdfs ∧ st2.pdfLibLoads = st1.pdfLibLoads
    ∧ st2.pdfjsLoads = st1.pdfjsLoads ++ [page.file.key] := by
  unfold flattenStep at heq
  split at heq
  next hjs =>
    split at heq
    next hnone => simp at heq
    next jsPage hsome =>
      split at heq
      next hr =>
        split at heq
        next he =>
          simp only [Except.ok.injEq] at heq
          subst heq
          exact ⟨rfl, rfl, rfl⟩
        next he => simp at heq
      next hr => simp at heq
  next hjs => simp at heq

theorem drawScaledStep_effects (st1 st2 : MergeState) (srcKey : Nat)
    (page : PageEntry) (srcPage : SrcPage) (scale : ℚ)
    (heq : drawScaledStep st1 srcKey page srcPage scale = .ok st2) :
    st2.loadedPdfs = st1.loadedPdfs ∧ st2.pdfLibLoads = st1.pdfLibLoads
    ∧ st2.pdfjsLoads = st1.pdfjsLoads := by
  unfold drawScaledStep at heq
  split at heq
  next he =>
    simp only [Except.ok.injEq] at heq
    subst heq
    exact ⟨rfl, rfl, rfl⟩
  next he => simp at heq

theorem copyStep_effects (st1 st2 : MergeState) (srcKey : Nat)
    (page : PageEntry) (srcPage : SrcPage)
    (heq : copyStep st1 srcKey page srcPage = .ok st2) :
    st2.loadedPdfs = st1.loadedPdfs ∧ st2.pdfLibLoads = st1.pdfLibLoads
    ∧ st2.pdfjsLoads = st1.pdfjsLoads := by
  unfold copyStep at heq
  split at heq
  next he =>
    simp only [Except.ok.injEq] at heq
    subst heq
    exact ⟨rfl, rfl, rfl⟩
  next he => simp at heq

theorem processPage_cache_effects (ob fl : Bool) (st st2 : MergeState)
    (page : PageEntry) (h : processPage ob fl st page = .ok st2) :
    ((st2.loadedPdfs = st.loadedPdfs ∧ st2.pdfLibLoads = st.pdfLibLoads)
      ∨ (st.loadedPdfs.lookup page.file.name = none
        ∧ st2.loadedPdfs = st.loadedPdfs ++ [(page.file.name, page.file)]
        ∧ st2.pdfLibLoads = st.pdfLibLoads ++ [page.file.key]))
    ∧ st2.pdfjsLoads =
      (if fl then st.pdfjsLoads ++ [page.file.key] else st.pdfjsLoads) := by
  unfold processPage at h
  split at h
  next e heq => simp at h
  next srcPdf st1 heq =>
    obtain ⟨hjs1, _, hcache1⟩ := loadSrcPdf_effects st page srcPdf st1 heq
    split at h
    next hnone => simp at h
    next srcPage hsome =>
      cases fl with
      | true =>
        simp only [if_pos] at h ⊢
        obtain ⟨hl2, hp2, hjs2⟩ := flattenStep_effects st1 st2 page _ _ h
        refine ⟨?_, by rw [hjs2, hjs1]⟩
        rcases hcache1 with ⟨h1, h2⟩ | ⟨h0, h1, h2⟩
        · exact Or.inl ⟨by rw [hl2, h1], by rw [hp2, h2]⟩
        · exact Or.inr ⟨h0, by rw [hl2, h1], by rw [hp2, h2]⟩
      | false =>
        simp only [Bool.false_eq_true, if_false] at h ⊢
        split at h
        next hs =>
          obtain ⟨hl2, hp2, hjs2⟩ :=
            drawScaledStep_effects st1 st2 srcPdf.key page srcPage _ h
          refine ⟨?_, by rw [hjs2, hjs1]⟩
          rcases hcache1 with ⟨h1, h2⟩ | ⟨h0, h1, h2⟩
          · exact Or.inl ⟨by rw [hl2, h1], by rw [hp2, h2]⟩
          · exact Or.inr ⟨h0, by rw [hl2, h1], by rw [hp2, h2]⟩
        next hs =>
          obtain ⟨hl2, hp2, hjs2⟩ :=
            copyStep_effects st1 st2 srcPdf.key page srcPage h
          refine ⟨?_, by rw [hjs2, hjs1]⟩
          rcases hcache1 with ⟨h1, h2⟩ | ⟨h0, h1, h2⟩
          · exact Or.inl ⟨by rw [hl2, h1], by rw [hp2, h2]⟩
          · exact Or.inr ⟨h0, by rw [hl2, h1], by rw [hp2, h2]⟩

theorem mergeCore_cache_inv (ob fl : Bool) (pages : List PageEntry) :
    ∀ (st st2 : MergeState),
      mergeCore ob fl st pages = .ok st2 →
      st.pdfLibLoads = st.loadedPdfs.map (fun nf => nf.2.key) →
      (st.loadedPdfs.map Prod.fst).Nodup →
      st2.pdfLibLoads = st2.loadedPdfs.map (fun nf => nf.2.key)
      ∧ (st2.loadedPdfs.map Prod.fst).Nodup := by
  induction pages with
  | nil =>
    intro st st2 h h1 h2
    unfold mergeCore at h
    simp only [Except.ok.injEq] at h
    subst h
    exact ⟨h1, h2⟩
  | cons p ps ih =>
    intro st st2 h h1 h2
    unfold mergeCore at h
    split at h
    next stm heq =>
      rcases (processPage_cache_effects ob fl st stm p heq).1 with
        ⟨ha, hb⟩ | ⟨h0, ha, hb⟩
      · exact ih stm st2 h (by rw [hb, ha, h1]) (by rw [ha]; exact h2)
      · refine ih stm st2 h ?_ ?_
        · rw [hb, ha, h1, List.map_append]
          rfl
        · rw [ha, List.map_append]
          have h0x : ∀ a b, (a, b) ∈ st.loadedPdfs → ¬p.file.name = a := by
            simpa using h0
          have hn : p.file.name ∉ st.loadedPdfs.map Prod.fst := by
            intro hmem
            obtain ⟨ab, hab, hfst⟩ := List.mem_map.mp hmem
            exact h0x ab.1 ab.2 hab hfst.symm
          simp [List.nodup_append, h2, hn]
    next e heq => simp at h

theorem mergeCore_pdfjsLoads (ob fl : Bool) (pages : List PageEntry) :
    ∀ (st st2 : MergeState), mergeCore ob fl st pages = .ok st2 →
      st2.pdfjsLoads = st.pdfjsLoads ++
        (if fl then pages.map (fun p => p.file.key) else []) := by
  induction pages with
  | nil =>
    intro st st2 h
    unfold mergeCore at h
    simp only [Except.ok.injEq] at h
    subst h
    cases fl <;> simp
  | cons p ps ih =>
    intro st st2 h
    unfold mergeCore at h
    split at h
    next stm heq =>
      have h2 := (processPage_cache_effects ob fl st stm p heq).2
      have h3 := ih stm st2 h
      cases fl with
      | true =>
        simp only [if_pos] at h2 h3 ⊢
        simp [h3, h2]
      | false =>
        simp only [Bool.false_eq_true, if_false] at h2 h3 ⊢
        simp [h3, h2]
    next e heq => simp at h

/-- A two-page source file that will be flattened. -/
def twoPageFile : SrcFile :=
  ⟨500, "two.pdf",
    [⟨612, 792, 0, true, true⟩, ⟨612, 792, 0, true, true⟩],
    true, true, true⟩

/-- Registry entries for the two pages of `twoPageFile`. -/
def twoPageEntry (i : Nat) : PageEntry :=
  ⟨"t" ++ toString i, twoPageFile, "two.pdf", i, 0, 612, 792⟩

/-- A file distinct from `twoPageFile` (identity 501, one 100×100 page)
that shares its name `two.pdf`. -/
def sameNameFile : SrcFile :=
  ⟨501, "two.pdf", [⟨100, 100, 0, true, true⟩], true, true, true⟩

/-- The registry entry for `sameNameFile`'s page. -/
def sameNameEntry : PageEntry :=
  ⟨"s", sameNameFile, "two.pdf", 0, 0, 100, 100⟩

/-- C5 counterexample: flattening the two pages of one file performs one
pdf-lib decode plus one pdf.js decode *per page* of the same SourceFile
(keys `[500, 500, 500]`) — decoding is repeated per page on the flatten
path, not "exactly once" per distinct SourceFile. -/
theorem c5_decode_counterexample :
    (mergeCore true true initMergeState
        [twoPageEntry 0, twoPageEntry 1]).toOption.map
      (fun st => st.pdfLibLoads ++ st.pdfjsLoads) = some [500, 500, 500]
    ∧ ([500, 500, 500] : List Nat) ≠ [500] := by
  constructor <;> decide

/-- C5 (amended): within one merge, the pdf-lib decode is memoized by file
*name*: there is exactly one `PDFDocument.load` per distinct name (the
decode log equals the cache's keys, whose names are pairwise distinct), so
distinct SourceFiles sharing a name are conflated — a same-named entry is
served the first file's document, as the final conjunct shows concretely
(the 100×100 page of file 501 is merged as the 612×792 page of file 500).
With `flatten` off no pdf.js decode happens; with `flatten` on, every page
additionally triggers a fresh pdf.js decode of its own file. -/
theorem c5_decode_caching :
    (∀ (ob fl : Bool) (pages : List PageEntry) (st : MergeState),
      mergeCore ob fl initMergeState pages = .ok st →
      st.pdfLibLoads = st.loadedPdfs.map (fun nf => nf.2.key)
      ∧ (st.loadedPdfs.map Prod.fst).Nodup)
    ∧ (∀ (ob : Bool) (pages : List PageEntry) (st : MergeState),
      mergeCore ob false initMergeState pages = .ok st → st.pdfjsLoads = [])
    ∧ (∀ (ob : Bool) (pages : List PageEntry) (st : MergeState),
      mergeCore ob true initMergeState pages = .ok st →
      st.pdfjsLoads = pages.map (fun p => p.file.key))
    ∧ (mergeAndDownload false false [twoPageEntry 0, sameNameEntry]).download =
      some [⟨612, 792, 0, .copied 500 0⟩, ⟨612, 792, 0, .copied 500 0⟩] := by
  refine ⟨?_, ?_, ?_, by decide⟩
  · intro ob fl pages st h
    exact mergeCore_cache_inv ob fl pages initMergeState st h rfl List.nodup_nil
  · intro ob pages st h
    simpa using mergeCore_pdfjsLoads ob false pages initMergeState st h
  · intro ob pages st h
    simpa using mergeCore_pdfjsLoads ob true pages initMergeState st h

theorem twoPage_flatten_process :
    mergeCore true true initMergeState [twoPageEntry 0, twoPageEntry 1] =
      .ok ⟨[("two.pdf", twoPageFile)], [500], [500, 500],
        [⟨612, 792, 0, .raster 500 0 2 0⟩,
          ⟨612, 792, 0, .raster 500 1 2 0⟩]⟩ := rfl

/-- Witness for C5: the flatten merge of `twoPageFile`'s pages logs one
pdf.js decode per page. -/
theorem c5_decode_witness :
    (⟨[("two.pdf", twoPageFile)], [500], [500, 500],
      [⟨612, 792, 0, .raster 500 0 2 0⟩,
        ⟨612, 792, 0, .raster 500 1 2 0⟩]⟩ : MergeState).pdfjsLoads =
      [twoPageEntry 0, twoPageEntry 1].map (fun p => p.file.key) :=
  c5_decode_caching.2.2.1 true [twoPageEntry 0, twoPageEntry 1]
    ⟨[("two.pdf", twoPageFile)], [500], [500, 500],
      [⟨612, 792, 0, .raster 500 0 2 0⟩,
        ⟨612, 792, 0, .raster 500 1 2 0⟩]⟩
    twoPage_flatten_process

/-! ## C4 — merge error behaviour -/

theorem lookup_append_single_ne (l : List (String × SrcFile)) (n k : String)
    (f : SrcFile) (h : l.lookup k = none) (hne : k ≠ n) :
    (l ++ [(n, f)]).lookup k = none := by
  rw [List.lookup_append, h]
  have hb : (k == n) = false := by simpa using hne
  simp [List.lookup_cons, hb]

theorem mergeCore_bad_name (ob fl : Bool) (pages : List PageEntry)
    (n : String) :
    ∀ (st : MergeState),
      (∃ p ∈ pages, p.file.name = n) →
      (∀ q ∈ pages, q.file.name = n → q.file.loadOk = false) →
      st.loadedPdfs.lookup n = none →
      ∃ e, mergeCore ob fl st pages = .error e := by
  induction pages with
  | nil =>
    intro st hex _ _
    obtain ⟨p, hp, _⟩ := hex
    exact absurd hp (List.not_mem_nil p)
  | cons q ps ih =>
    intro st hex hall hlk
    by_cases hqn : q.file.name = n
    · have hload : q.file.loadOk = false :=
        hall q (List.mem_cons_self q ps) hqn
      have hpp : processPage ob fl st q = .error "InvalidDocument" := by
        unfold processPage loadSrcPdf
        rw [hqn, hlk, hload]
        rfl
      refine ⟨"InvalidDocument", ?_⟩
      unfold mergeCore
      rw [hpp]
    · cases hp : processPage ob fl st q with
      | error e =>
        refine ⟨e, ?_⟩
        unfold mergeCore
        rw [hp]
      | ok stm =>
        have heff := (processPage_cache_effects ob fl st stm q hp).1
        have hlk2 : stm.loadedPdfs.lookup n = none := by
          rcases heff with ⟨ha, _⟩ | ⟨_, ha, _⟩
          · rw [ha]; exact hlk
          · rw [ha]
            exact lookup_append_single_ne _ _ _ _ hlk
              (fun hc => hqn hc.symm)
        obtain ⟨p, hpm, hpn⟩ := hex
        have hpm2 : p ∈ ps := by
          rcases List.mem_cons.mp hpm with rfl | h2
          · exact absurd hpn hqn
          · exact h2
        obtain ⟨e, he⟩ := ih stm ⟨p, hpm2, hpn⟩
          (fun r hr hn => hall r (List.mem_cons_of_mem q hr) hn) hlk2
        refine ⟨e, ?_⟩
        unfold mergeCore
        rw [hp]
        exact he

/-- C4: any page failure aborts the whole merge with no output — when the
per-page loop raises, the `catch` handler emits the human-readable console
message `Merge failed:` and no document is saved or downloaded; when the
loop completes, the full document (one output page per entry, in registry
order) is downloaded and no error is emitted.  In particular a page whose
file cannot be decoded by pdf-lib (and that no same-named load can mask)
always aborts the merge this way. -/
theorem c4_merge_all_or_nothing :
    (∀ (ob fl : Bool) (pages : List PageEntry) (e : String),
      mergeCore ob fl initMergeState pages = .error e →
      mergeAndDownload ob fl pages = ⟨none, ["Merge failed:"]⟩)
    ∧ (∀ (ob fl : Bool) (pages : List PageEntry) (st : MergeState),
      mergeCore ob fl initMergeState pages = .ok st →
      mergeAndDownload ob fl pages = ⟨some st.pages, []⟩)
    ∧ (∀ (ob fl : Bool) (pages : List PageEntry) (p : PageEntry),
      p ∈ pages →
      (∀ q ∈ pages, q.file.name = p.file.name → q.file.loadOk = false) →
      mergeAndDownload ob fl pages = ⟨none, ["Merge failed:"]⟩) := by
  refine ⟨?_, ?_, ?_⟩
  · intro ob fl pages e h
    unfold mergeAndDownload
    rw [h]
  · intro ob fl pages st h
    unfold mergeAndDownload
    rw [h]
  · intro ob fl pages p hp hall
    obtain ⟨e, he⟩ := mergeCore_bad_name ob fl pages p.file.name
      initMergeState ⟨p, hp, rfl⟩ hall rfl
    unfold mergeAndDownload
    rw [he]

/-- A file whose pdf-lib decode fails at merge time. -/
def badLoadFile : SrcFile :=
  ⟨600, "broken.pdf", [⟨612, 792, 0, true, true⟩], true, false, true⟩

/-- The registry entry for `badLoadFile`'s page. -/
def badLoadEntry : PageEntry :=
  ⟨"broken", badLoadFile, "broken.pdf", 0, 0, 612, 792⟩

/-- Witness for C4: merging a registry whose only page cannot be decoded
produces no download and the console message. -/
theorem c4_merge_witness :
    mergeAndDownload true false [badLoadEntry] = ⟨none, ["Merge failed:"]⟩ :=
  c4_merge_all_or_nothing.2.2 true false [badLoadEntry] badLoadEntry
    (by decide) (by decide)
